import Mathlib

/-!
Verification of the Phantom-Flow market-data service (Rust crate `market-data`)
against its natural-language specification.

The development is a shallow embedding of the relevant source code:

* `src/market-data/src/orderbook/book.rs` — the per-symbol order book
  (`OrderBook::new`, `init_snapshot`, `apply_update`, `update_side`,
  `trim_depth`, `imbalance`).
* `src/market-data/src/parser.rs` — message parsing (`ParsedMessage::parse`).
* `src/market-data/src/publisher/mod.rs` — the best-effort IPC publisher.
* `src/market-data/src/websocket/manager.rs` — the reconnect supervisor.

Modelling conventions:

* `rust_decimal::Decimal` prices and quantities are modelled as exact
  rationals `ℚ`; the spec (§4.1) requires exact decimal arithmetic and every
  operation used here (`+`, `-`, comparison, division with nonzero
  denominator, sums) is exact on the represented values.
* `u64` sequence numbers and timestamps are modelled as `Nat`; no operation
  performed on them in the code can overflow behaviourally (they only grow
  towards exchange-supplied ids).
* `BTreeMap<Reverse<Decimal>, Decimal>` (bids) and
  `BTreeMap<Decimal, Decimal>` (asks) are modelled as association lists with
  strictly sorted keys: bids descending by price, asks ascending by price.
  `insert` replaces an existing key or places the new key at its sorted
  position; `remove` deletes the key; `pop_last` drops the last entry, so the
  `trim_depth` loop `while len > max_depth { pop_last() }` is exactly
  `List.take max_depth`.
-/

namespace PhantomFlow

/-- `rust_decimal::Decimal`, modelled as an exact rational. -/
abbrev Dec := ℚ

/-- `parser.rs`: a `PriceLevel` — one `["price","qty"]` pair. -/
structure PriceLevel where
  price : Dec
  quantity : Dec
deriving DecidableEq, Repr

/-- `parser.rs`: REST `OrderBookSnapshot { lastUpdateId, bids, asks }`. -/
structure OrderBookSnapshot where
  lastUpdateId : Nat
  bids : List PriceLevel
  asks : List PriceLevel
deriving DecidableEq, Repr

/-- `parser.rs`: stream `DepthUpdate` (`e`, `E`, `s`, `U`, `u`, `b`, `a`). -/
structure DepthUpdate where
  eventType : String
  eventTime : Nat
  symbol : String
  firstUpdateId : Nat
  finalUpdateId : Nat
  bids : List PriceLevel
  asks : List PriceLevel
deriving DecidableEq, Repr

/-- A side of the book as a sorted association list `price ↦ quantity`;
the comparator `before` says which of two distinct keys comes first.
`BTreeMap::insert`: replace the key if present, else place it in order. -/
def mapInsert (before : Dec → Dec → Bool) (p q : Dec) :
    List (Dec × Dec) → List (Dec × Dec)
  | [] => [(p, q)]
  | (p', q') :: rest =>
    if p = p' then (p, q) :: rest
    else if before p p' then (p, q) :: (p', q') :: rest
    else (p', q') :: mapInsert before p q rest

/-- `BTreeMap::remove`: drop the entry with the given key, if any. -/
def mapRemove (p : Dec) : List (Dec × Dec) → List (Dec × Dec)
  | [] => []
  | (p', q') :: rest => if p = p' then rest else (p', q') :: mapRemove p rest

/-- Bid-side key order (`Reverse<Decimal>`): higher prices come first. -/
def bidBefore (a b : Dec) : Bool := decide (b < a)

/-- Ask-side key order: lower prices come first. -/
def askBefore (a b : Dec) : Bool := decide (a < b)

/-- `book.rs`: the `OrderBook` struct.  The Rust field `initialized` is
named `inited` here; `last_update_time` is `lastUpdateTime`. -/
structure OrderBook where
  symbol : String
  /-- bids, association list sorted descending by price (best bid first) -/
  bids : List (Dec × Dec)
  /-- asks, association list sorted ascending by price (best ask first) -/
  asks : List (Dec × Dec)
  lastUpdateId : Nat
  inited : Bool
  maxDepth : Nat
  lastUpdateTime : Nat
deriving DecidableEq, Repr

namespace OrderBook

/-- `OrderBook::new(symbol, max_depth)`. -/
def new (symbol : String) (maxDepth : Nat) : OrderBook :=
  { symbol := symbol
    bids := []
    asks := []
    lastUpdateId := 0
    inited := false
    maxDepth := maxDepth
    lastUpdateTime := 0 }

/-- `OrderBook::trim_depth`: `while side.len() > max_depth { side.pop_last() }`
on each side, i.e. keep only the first `max_depth` entries. -/
def trimDepth (b : OrderBook) : OrderBook :=
  { b with bids := b.bids.take b.maxDepth, asks := b.asks.take b.maxDepth }

/-- `OrderBook::init_snapshot`: clear both sides, insert the snapshot levels
with strictly positive quantity, set `last_update_id`, mark initialized,
then trim. -/
def initSnapshot (b : OrderBook) (s : OrderBookSnapshot) : OrderBook :=
  let bids := s.bids.foldl
    (fun m l => if 0 < l.quantity then mapInsert bidBefore l.price l.quantity m else m) []
  let asks := s.asks.foldl
    (fun m l => if 0 < l.quantity then mapInsert askBefore l.price l.quantity m else m) []
  trimDepth { b with
    bids := bids
    asks := asks
    lastUpdateId := s.lastUpdateId
    inited := true }

/-- `OrderBook::update_side` for one level: quantity `== 0` removes the
price, any other quantity overwrites it. -/
def updateSideStep (before : Dec → Dec → Bool)
    (m : List (Dec × Dec)) (l : PriceLevel) : List (Dec × Dec) :=
  if l.quantity = 0 then mapRemove l.price m
  else mapInsert before l.price l.quantity m

/-- `OrderBook::apply_update`: reject when not initialized or when
`final_update_id ≤ last_update_id`; otherwise apply bid then ask levels,
advance `last_update_id` and `last_update_time`, trim, and return `true`.
Returns the Rust `bool` together with the mutated book. -/
def applyUpdate (b : OrderBook) (u : DepthUpdate) : Bool × OrderBook :=
  if b.inited = false then (false, b)
  else if u.finalUpdateId ≤ b.lastUpdateId then (false, b)
  else
    let bids := u.bids.foldl (updateSideStep bidBefore) b.bids
    let asks := u.asks.foldl (updateSideStep askBefore) b.asks
    (true, trimDepth { b with
      bids := bids
      asks := asks
      lastUpdateId := u.finalUpdateId
      lastUpdateTime := u.eventTime })

/-- `OrderBook::imbalance(levels)`:
`(Σ top-N bid qty − Σ top-N ask qty) / (their sum)`, `none` if the total is
not positive.  The Rust locals `bid_volume`, `ask_volume` and `total` are
inlined. -/
def imbalance (b : OrderBook) (levels : Nat) : Option Dec :=
  if 0 < ((b.bids.take levels).map Prod.snd).sum +
      ((b.asks.take levels).map Prod.snd).sum then
    some ((((b.bids.take levels).map Prod.snd).sum -
        ((b.asks.take levels).map Prod.snd).sum) /
      (((b.bids.take levels).map Prod.snd).sum +
        ((b.asks.take levels).map Prod.snd).sum))
  else none

end OrderBook

/-- A step of the book lifecycle: a REST snapshot or a stream diff. -/
inductive BookOp where
  | snap (s : OrderBookSnapshot)
  | diff (u : DepthUpdate)
deriving DecidableEq, Repr

/-- Apply one lifecycle operation. -/
def OrderBook.applyOp (b : OrderBook) : BookOp → OrderBook
  | .snap s => b.initSnapshot s
  | .diff u => (b.applyUpdate u).2

/-- Apply a sequence of lifecycle operations in order. -/
def OrderBook.runOps (b : OrderBook) (ops : List BookOp) : OrderBook :=
  ops.foldl OrderBook.applyOp b

/-- Apply a list of diffs in order (snapshot-free lifecycle segment). -/
def OrderBook.runDiffs (b : OrderBook) (ds : List DepthUpdate) : OrderBook :=
  ds.foldl (fun bk d => (bk.applyUpdate d).2) b

/-- The `final_update_id`s of the diffs accepted while applying `ds`
in order, oldest first. -/
def OrderBook.acceptedFinals (b : OrderBook) : List DepthUpdate → List Nat
  | [] => []
  | d :: rest =>
    (if (b.applyUpdate d).1 then [d.finalUpdateId] else []) ++
      ((b.applyUpdate d).2).acceptedFinals rest

/-- C1: `apply_update` on an uninitialized book, or with
`final_update_id ≤ last_update_id`, returns `false` and leaves every field
of the book unchanged. -/
theorem apply_update_stale_is_noop (b : OrderBook) (u : DepthUpdate)
    (h : b.inited = false ∨ u.finalUpdateId ≤ b.lastUpdateId) :
    b.applyUpdate u = (false, b) := by
  rcases h with h | h
  · simp [OrderBook.applyUpdate, h]
  · rcases hb : b.inited with _ | _
    · simp [OrderBook.applyUpdate, hb]
    · simp [OrderBook.applyUpdate, hb, h]

/-- C1 witness: a concrete synced book rejects a stale diff unchanged. -/
theorem apply_update_stale_is_noop_witness :
    OrderBook.applyUpdate
      (OrderBook.initSnapshot (OrderBook.new "BTCUSDT" 5)
        ⟨100, [⟨50000, 1⟩], [⟨50001, 2⟩]⟩)
      ⟨"depthUpdate", 7, "BTCUSDT", 90, 100, [⟨50000, 9⟩], []⟩ =
    (false,
      OrderBook.initSnapshot (OrderBook.new "BTCUSDT" 5)
        ⟨100, [⟨50000, 1⟩], [⟨50001, 2⟩]⟩) :=
  apply_update_stale_is_noop _ _ (Or.inr (by decide))

/-- C2: evaluation of `apply_update` at a gapped diff.  A book synced at
`last_update_id = 100` receives a diff with `first_update_id = 150`
(`≠ 101`, a sequence gap).  The code accepts it anyway — `apply_update`
only compares `final_update_id` with `last_update_id` and neither it nor
`process_message` detects the gap or triggers a resync — contradicting the
spec's handshake (apply iff `first_update_id == last_update_id + 1`,
otherwise refetch the snapshot). -/
theorem apply_update_accepts_gapped_diff :
    (DepthUpdate.firstUpdateId ⟨"depthUpdate", 7, "BTCUSDT", 150, 160, [], []⟩ ≠
      (OrderBook.initSnapshot (OrderBook.new "BTCUSDT" 10)
        ⟨100, [], []⟩).lastUpdateId + 1) ∧
    (OrderBook.applyUpdate
      (OrderBook.initSnapshot (OrderBook.new "BTCUSDT" 10) ⟨100, [], []⟩)
      ⟨"depthUpdate", 7, "BTCUSDT", 150, 160, [], []⟩).1 = true ∧
    ((OrderBook.applyUpdate
      (OrderBook.initSnapshot (OrderBook.new "BTCUSDT" 10) ⟨100, [], []⟩)
      ⟨"depthUpdate", 7, "BTCUSDT", 150, 160, [], []⟩).2).lastUpdateId = 160 := by
  decide

@[simp] theorem trimDepth_lastUpdateId (b : OrderBook) :
    (b.trimDepth).lastUpdateId = b.lastUpdateId := rfl

/-- `apply_update` never decreases `last_update_id`. -/
theorem applyUpdate_lastUpdateId_le (b : OrderBook) (u : DepthUpdate) :
    b.lastUpdateId ≤ ((b.applyUpdate u).2).lastUpdateId := by
  unfold OrderBook.applyUpdate
  split_ifs with h1 h2
  · exact le_refl _
  · exact le_refl _
  · simp only [OrderBook.trimDepth]
    omega

/-- An accepted diff strictly advances `last_update_id` to its
`final_update_id`. -/
theorem applyUpdate_accepted (b : OrderBook) (u : DepthUpdate)
    (h : (b.applyUpdate u).1 = true) :
    b.lastUpdateId < u.finalUpdateId ∧
      ((b.applyUpdate u).2).lastUpdateId = u.finalUpdateId := by
  unfold OrderBook.applyUpdate at h ⊢
  split_ifs at h ⊢ with h1 h2
  exact ⟨by omega, rfl⟩

/-- A rejected diff leaves the book entirely unchanged. -/
theorem applyUpdate_rejected_eq (b : OrderBook) (u : DepthUpdate)
    (h : (b.applyUpdate u).1 = false) : (b.applyUpdate u).2 = b := by
  unfold OrderBook.applyUpdate at h ⊢
  split_ifs at h ⊢ <;> simp_all

@[simp] theorem runDiffs_nil (b : OrderBook) : b.runDiffs [] = b := rfl

@[simp] theorem runDiffs_cons (b : OrderBook) (d : DepthUpdate)
    (ds : List DepthUpdate) :
    b.runDiffs (d :: ds) = ((b.applyUpdate d).2).runDiffs ds := rfl

/-- Over any list of diffs, `last_update_id` is non-decreasing. -/
theorem runDiffs_lastUpdateId_le (ds : List DepthUpdate) (b : OrderBook) :
    b.lastUpdateId ≤ (b.runDiffs ds).lastUpdateId := by
  induction ds generalizing b with
  | nil => simp
  | cons d ds ih =>
    exact le_trans (applyUpdate_lastUpdateId_le b d) (by simpa using ih _)

/-- If no diff of `ds` is accepted, the run leaves the book unchanged. -/
theorem acceptedFinals_nil_runDiffs (ds : List DepthUpdate) (b : OrderBook)
    (h : b.acceptedFinals ds = []) : b.runDiffs ds = b := by
  induction ds generalizing b with
  | nil => simp
  | cons d ds ih =>
    simp only [OrderBook.acceptedFinals] at h
    rcases hd : (b.applyUpdate d).1 with _ | _
    · simp only [hd, Bool.false_eq_true, if_false, List.nil_append] at h
      have hb : (b.applyUpdate d).2 = b := applyUpdate_rejected_eq b d hd
      rw [runDiffs_cons, hb]
      rw [hb] at h
      exact ih _ h
    · simp [hd] at h

/-- After a run in which some diff is accepted, `last_update_id` equals
the `final_update_id` of the last accepted diff. -/
theorem runDiffs_lastUpdateId_getLast (ds : List DepthUpdate) (b : OrderBook)
    (x : Nat) (h : (b.acceptedFinals ds).getLast? = some x) :
    (b.runDiffs ds).lastUpdateId = x := by
  induction ds generalizing b with
  | nil => simp [OrderBook.acceptedFinals] at h
  | cons d ds ih =>
    simp only [OrderBook.acceptedFinals] at h
    rcases hd : (b.applyUpdate d).1 with _ | _
    · simp only [hd, Bool.false_eq_true, if_false, List.nil_append] at h
      rw [runDiffs_cons]
      exact ih _ h
    · simp only [hd, if_true, List.singleton_append] at h
      rcases hrest : ((b.applyUpdate d).2).acceptedFinals ds with _ | ⟨y, ys⟩
      · rw [hrest] at h
        simp only [List.getLast?_singleton, Option.some.injEq] at h
        rw [runDiffs_cons, acceptedFinals_nil_runDiffs ds _ hrest, ← h]
        exact (applyUpdate_accepted b d hd).2
      · rw [hrest, List.getLast?_cons_cons] at h
        rw [runDiffs_cons]
        exact ih _ (by rw [hrest]; exact h)

/-- C3 counterexample: applying two snapshots in order
(`lastUpdateId` 100 then 50) makes `last_update_id` decrease from 100
to 50, so it is not monotonically non-decreasing over arbitrary
sequences of `init_snapshot` and `apply_update`. -/
theorem lastUpdateId_decreases_on_old_snapshot :
    ((OrderBook.new "BTCUSDT" 10).runOps
      [BookOp.snap ⟨100, [], []⟩]).lastUpdateId = 100 ∧
    ((OrderBook.new "BTCUSDT" 10).runOps
      [BookOp.snap ⟨100, [], []⟩, BookOp.snap ⟨50, [], []⟩]).lastUpdateId = 50 ∧
    ¬(100 ≤ 50) := by
  decide

/-- C3 amended: `apply_update` never decreases `last_update_id` — a
rejected diff leaves the book unchanged and an accepted diff strictly
advances `last_update_id` to its `final_update_id`; hence over any
snapshot-free sequence of diffs `last_update_id` is monotonically
non-decreasing and, if any diff was accepted, ends equal to the
`final_update_id` of the last accepted diff.  (`init_snapshot` instead
overwrites `last_update_id` with the snapshot's value, which may be
smaller.) -/
theorem lastUpdateId_monotone_over_diffs :
    (∀ (b : OrderBook) (u : DepthUpdate),
      b.lastUpdateId ≤ ((b.applyUpdate u).2).lastUpdateId) ∧
    (∀ (b : OrderBook) (u : DepthUpdate), (b.applyUpdate u).1 = true →
      b.lastUpdateId < u.finalUpdateId ∧
        ((b.applyUpdate u).2).lastUpdateId = u.finalUpdateId) ∧
    (∀ (b : OrderBook) (u : DepthUpdate), (b.applyUpdate u).1 = false →
      (b.applyUpdate u).2 = b) ∧
    (∀ (b : OrderBook) (ds : List DepthUpdate),
      b.lastUpdateId ≤ (b.runDiffs ds).lastUpdateId) ∧
    (∀ (b : OrderBook) (ds : List DepthUpdate) (x : Nat),
      (b.acceptedFinals ds).getLast? = some x →
        (b.runDiffs ds).lastUpdateId = x) :=
  ⟨applyUpdate_lastUpdateId_le, applyUpdate_accepted, applyUpdate_rejected_eq,
    fun b ds => runDiffs_lastUpdateId_le ds b,
    fun b ds x h => runDiffs_lastUpdateId_getLast ds b x h⟩

/-- C3 amended, witness: a synced book at id 100 accepting diffs with
final ids 102 then 105 ends at `last_update_id = 105`, the last accepted
diff's final id. -/
theorem lastUpdateId_monotone_over_diffs_witness :
    ((OrderBook.initSnapshot (OrderBook.new "W" 5) ⟨100, [], []⟩).applyUpdate
        ⟨"depthUpdate", 1, "W", 101, 102, [], []⟩).2.lastUpdateId = 102 ∧
    ((OrderBook.initSnapshot (OrderBook.new "W" 5) ⟨100, [], []⟩).runDiffs
        [⟨"depthUpdate", 1, "W", 101, 102, [], []⟩,
         ⟨"depthUpdate", 2, "W", 103, 105, [], []⟩]).lastUpdateId = 105 :=
  ⟨(lastUpdateId_monotone_over_diffs.2.1 _ _ (by decide)).2,
    lastUpdateId_monotone_over_diffs.2.2.2.2 _ _ 105 (by decide)⟩

/-- Both sides of the book hold at most `max_depth` levels. -/
def depthOk (b : OrderBook) : Prop :=
  b.bids.length ≤ b.maxDepth ∧ b.asks.length ≤ b.maxDepth

/-- `trim_depth` establishes the depth bound unconditionally. -/
theorem depthOk_trimDepth (b : OrderBook) : depthOk b.trimDepth :=
  ⟨List.length_take_le _ _, List.length_take_le _ _⟩

/-- `init_snapshot` establishes the depth bound. -/
theorem depthOk_initSnapshot (b : OrderBook) (s : OrderBookSnapshot) :
    depthOk (b.initSnapshot s) :=
  depthOk_trimDepth _

/-- `apply_update` preserves the depth bound. -/
theorem depthOk_applyUpdate (b : OrderBook) (u : DepthUpdate)
    (h : depthOk b) : depthOk ((b.applyUpdate u).2) := by
  rcases hd : (b.applyUpdate u).1 with _ | _
  · rw [applyUpdate_rejected_eq b u hd]; exact h
  · unfold OrderBook.applyUpdate at hd ⊢
    split_ifs at hd ⊢
    exact depthOk_trimDepth _

/-- Each lifecycle operation preserves the depth bound. -/
theorem depthOk_applyOp (b : OrderBook) (op : BookOp)
    (h : depthOk b) : depthOk (b.applyOp op) := by
  cases op with
  | snap s => exact depthOk_initSnapshot b s
  | diff u => exact depthOk_applyUpdate b u h

/-- C4: a fresh book has at most `max_depth` levels per side, and so does
every book reached from it by any sequence of `init_snapshot` and
`apply_update` operations; in particular the bound holds after every
single operation. -/
theorem depth_bound_always :
    (∀ (sym : String) (d : Nat), depthOk (OrderBook.new sym d)) ∧
    (∀ (b : OrderBook) (s : OrderBookSnapshot), depthOk (b.initSnapshot s)) ∧
    (∀ (sym : String) (d : Nat) (ops : List BookOp),
      depthOk ((OrderBook.new sym d).runOps ops)) := by
  refine ⟨fun sym d => ⟨Nat.zero_le _, Nat.zero_le _⟩, depthOk_initSnapshot, ?_⟩
  intro sym d ops
  have key : ∀ (ops : List BookOp) (b : OrderBook),
      depthOk b → depthOk (b.runOps ops) := by
    intro ops
    induction ops with
    | nil => exact fun b h => h
    | cons op rest ih =>
      intro b h
      exact ih _ (depthOk_applyOp b op h)
  exact key ops _ ⟨Nat.zero_le _, Nat.zero_le _⟩

/-- C5: `trim_depth` keeps the first `max_depth` entries of each side and
evicts the rest; since bids are sorted descending by price and asks
ascending, every evicted bid price is below every retained bid price and
every evicted ask price is above every retained ask price.  Concretely,
with `max_depth = 3` and a snapshot of five unit-quantity bids at prices
60, 59, 58, 57, 56, the post-init bids are exactly 60, 59, 58. -/
theorem trim_depth_evicts_worst :
    (∀ b : OrderBook,
      b.bids.Sorted (fun x y : Dec × Dec => y.1 < x.1) →
      ∀ p ∈ (b.trimDepth).bids, ∀ q ∈ b.bids.drop b.maxDepth, q.1 < p.1) ∧
    (∀ b : OrderBook,
      b.asks.Sorted (fun x y : Dec × Dec => x.1 < y.1) →
      ∀ p ∈ (b.trimDepth).asks, ∀ q ∈ b.asks.drop b.maxDepth, p.1 < q.1) ∧
    ((OrderBook.initSnapshot (OrderBook.new "BTCUSDT" 3)
      ⟨1, [⟨60, 1⟩, ⟨59, 1⟩, ⟨58, 1⟩, ⟨57, 1⟩, ⟨56, 1⟩], []⟩).bids =
      [(60, 1), (59, 1), (58, 1)]) := by
  refine ⟨?_, ?_, by decide⟩
  · intro b hs p hp q hq
    have hsplit := List.take_append_drop b.maxDepth b.bids
    have hpair := (List.pairwise_append.mp (hsplit ▸ hs)).2.2
    exact hpair p hp q hq
  · intro b hs p hp q hq
    have hsplit := List.take_append_drop b.maxDepth b.asks
    have hpair := (List.pairwise_append.mp (hsplit ▸ hs)).2.2
    exact hpair p hp q hq

/-- C5 witness: on a concrete descending three-level bid ladder with
`max_depth = 2`, the retained price 30 beats the evicted price 10. -/
theorem trim_depth_evicts_worst_witness :
    (((10 : Dec), (1 : Dec))).1 < (((30 : Dec), (1 : Dec))).1 :=
  trim_depth_evicts_worst.1
    ⟨"W", [(30, 1), (20, 1), (10, 1)], [], 0, true, 2, 0⟩
    (by decide) (30, 1) (by decide) (10, 1) (by decide)

/-- Every entry of a side has strictly positive quantity. -/
abbrev qtyPos (m : List (Dec × Dec)) : Prop := ∀ e ∈ m, 0 < e.2

theorem qtyPos_mapInsert (before : Dec → Dec → Bool) (p q : Dec)
    (m : List (Dec × Dec)) (hm : qtyPos m) (hq : 0 < q) :
    qtyPos (mapInsert before p q m) := by
  induction m with
  | nil =>
    intro e he
    simp [mapInsert] at he
    simp [he, hq]
  | cons hd tl ih =>
    intro e he
    rw [mapInsert] at he
    split_ifs at he with h1 h2
    · rcases List.mem_cons.mp he with h | h
      · simp [h, hq]
      · exact hm e (List.mem_cons_of_mem _ h)
    · rcases List.mem_cons.mp he with h | h
      · simp [h, hq]
      · exact hm e h
    · rcases List.mem_cons.mp he with h | h
      · exact hm e (h ▸ List.mem_cons_self _ _)
      · exact ih (fun e' he' => hm e' (List.mem_cons_of_mem _ he')) e h

theorem qtyPos_mapRemove (p : Dec) (m : List (Dec × Dec))
    (hm : qtyPos m) : qtyPos (mapRemove p m) := by
  induction m with
  | nil => intro e he; simp [mapRemove] at he
  | cons hd tl ih =>
    intro e he
    rw [mapRemove] at he
    split_ifs at he with h1
    · exact hm e (List.mem_cons_of_mem _ he)
    · rcases List.mem_cons.mp he with h | h
      · exact hm e (h ▸ List.mem_cons_self _ _)
      · exact ih (fun e' he' => hm e' (List.mem_cons_of_mem _ he')) e h

theorem qtyPos_take (n : Nat) (m : List (Dec × Dec)) (hm : qtyPos m) :
    qtyPos (m.take n) :=
  fun e he => hm e (List.mem_of_mem_take he)

/-- Folding snapshot levels (inserting only those with positive quantity)
preserves side positivity. -/
theorem qtyPos_foldl_snapshot (before : Dec → Dec → Bool)
    (ls : List PriceLevel) (m : List (Dec × Dec)) (hm : qtyPos m) :
    qtyPos (ls.foldl
      (fun m l => if 0 < l.quantity then mapInsert before l.price l.quantity m else m)
      m) := by
  induction ls generalizing m with
  | nil => exact hm
  | cons l ls ih =>
    rw [List.foldl_cons]
    split_ifs with h
    · exact ih _ (qtyPos_mapInsert before l.price l.quantity m hm h)
    · exact ih _ hm

/-- Folding diff levels with nonnegative quantities preserves side
positivity (`quantity == 0` removes, positive overwrites). -/
theorem qtyPos_foldl_updateSide (before : Dec → Dec → Bool)
    (ls : List PriceLevel) (m : List (Dec × Dec)) (hm : qtyPos m)
    (hls : ∀ l ∈ ls, 0 ≤ l.quantity) :
    qtyPos (ls.foldl (OrderBook.updateSideStep before) m) := by
  induction ls generalizing m with
  | nil => exact hm
  | cons l ls ih =>
    rw [List.foldl_cons]
    have hrest : ∀ l' ∈ ls, 0 ≤ l'.quantity :=
      fun l' hl' => hls l' (List.mem_cons_of_mem _ hl')
    unfold OrderBook.updateSideStep
    split_ifs with h
    · exact ih _ (qtyPos_mapRemove l.price m hm) hrest
    · have hpos : 0 < l.quantity :=
        lt_of_le_of_ne (hls l (List.mem_cons_self _ _)) (Ne.symm h)
      exact ih _ (qtyPos_mapInsert before l.price l.quantity m hm hpos) hrest

/-- C6 counterexample: a synced book accepts a diff carrying a bid level
with quantity −1; `update_side` only treats quantity `== 0` as a removal,
so the negative-quantity level is stored, violating the claimed
strictly-positive-quantity invariant. -/
theorem negative_diff_quantity_is_stored :
    ((OrderBook.initSnapshot (OrderBook.new "BTCUSDT" 10)
        ⟨100, [], []⟩).applyUpdate
      ⟨"depthUpdate", 5, "BTCUSDT", 101, 101, [⟨10, -1⟩], []⟩).1 = true ∧
    ((10 : Dec), (-1 : Dec)) ∈
      ((OrderBook.initSnapshot (OrderBook.new "BTCUSDT" 10)
          ⟨100, [], []⟩).applyUpdate
        ⟨"depthUpdate", 5, "BTCUSDT", 101, 101, [⟨10, -1⟩], []⟩).2.bids ∧
    ¬(0 < (-1 : Dec)) := by
  decide

/-- C6 amended: after `init_snapshot` with any snapshot every stored level
has strictly positive quantity (zero- and negative-quantity snapshot
levels are ignored); and `apply_update` preserves the invariant provided
every level of the diff has nonnegative quantity — a zero-quantity diff
level removes its price, a positive one overwrites it.  (A diff level
with negative quantity would be stored as-is, so the invariant is
restricted to nonnegative diff inputs.) -/
theorem quantities_positive :
    (∀ (b : OrderBook) (s : OrderBookSnapshot),
      qtyPos (b.initSnapshot s).bids ∧ qtyPos (b.initSnapshot s).asks) ∧
    (∀ (b : OrderBook) (u : DepthUpdate),
      qtyPos b.bids → qtyPos b.asks →
      (∀ l ∈ u.bids, 0 ≤ l.quantity) → (∀ l ∈ u.asks, 0 ≤ l.quantity) →
      qtyPos ((b.applyUpdate u).2).bids ∧ qtyPos ((b.applyUpdate u).2).asks) := by
  constructor
  · intro b s
    constructor
    · exact qtyPos_take _ _ (qtyPos_foldl_snapshot bidBefore s.bids []
        (fun e he => absurd he (List.not_mem_nil e)))
    · exact qtyPos_take _ _ (qtyPos_foldl_snapshot askBefore s.asks []
        (fun e he => absurd he (List.not_mem_nil e)))
  · intro b u hb ha hub hua
    unfold OrderBook.applyUpdate
    split_ifs
    · exact ⟨hb, ha⟩
    · exact ⟨hb, ha⟩
    · exact ⟨qtyPos_take _ _ (qtyPos_foldl_updateSide bidBefore u.bids b.bids hb hub),
        qtyPos_take _ _ (qtyPos_foldl_updateSide askBefore u.asks b.asks ha hua)⟩

/-- C6 amended, witness: a synced one-level book accepting a diff that
deletes one price (qty 0) and overwrites another (qty 2) keeps all
stored quantities strictly positive. -/
theorem quantities_positive_witness :
    qtyPos ((OrderBook.initSnapshot (OrderBook.new "W" 5)
        ⟨100, [⟨50, 1⟩], [⟨51, 1⟩]⟩).applyUpdate
      ⟨"depthUpdate", 5, "W", 101, 101, [⟨50, 0⟩, ⟨49, 2⟩], []⟩).2.bids :=
  (quantities_positive.2
    (OrderBook.initSnapshot (OrderBook.new "W" 5) ⟨100, [⟨50, 1⟩], [⟨51, 1⟩]⟩)
    ⟨"depthUpdate", 5, "W", 101, 101, [⟨50, 0⟩, ⟨49, 2⟩], []⟩
    (by decide) (by decide) (by decide) (by decide)).1

/-- `publisher/mod.rs`: the `Publisher`'s guarded socket handle —
`some h` models a connected `UnixStream`. -/
structure Publisher where
  stream : Option Nat
deriving DecidableEq, Repr

/-- Environment outcome of one `publish` call: what `connect` would yield
(`some` fresh handle or failure) and whether `write_all` would succeed. -/
structure IpcEnv where
  connectResult : Option Nat
  writeOk : Bool
deriving DecidableEq, Repr

/-- `Publisher::publish`.  `rmp_serde::to_vec` of an `OrderBookState`
writes to an in-memory `Vec` and cannot fail for this data type, so
serialization is modelled as total and the serialized payload is the
(otherwise uninspected) `_payload` argument.  If no handle is stored,
`connect` is tried first; a connect failure returns `Ok(())` at once.
A write failure logs, clears the handle and still returns `Ok(())`. -/
def Publisher.publish (p : Publisher) (env : IpcEnv) (_payload : List Nat) :
    Except String Unit × Publisher :=
  match p.stream with
  | none =>
    match env.connectResult with
    | none => (Except.ok (), p)
    | some h =>
      if env.writeOk then (Except.ok (), ⟨some h⟩) else (Except.ok (), ⟨none⟩)
  | some _ =>
    if env.writeOk then (Except.ok (), p) else (Except.ok (), ⟨none⟩)

/-- C7: `publish` always returns `Ok` — connect and write failures are
absorbed locally — and after a failed write the stored handle is cleared,
so the next `publish` goes through the fresh-connect branch. -/
theorem publish_never_errors (p : Publisher) (env : IpcEnv)
    (payload : List Nat) :
    (p.publish env payload).1 = Except.ok () ∧
    (env.writeOk = false → ((p.publish env payload).2).stream = none) := by
  rcases p with ⟨stream⟩
  rcases env with ⟨cr, w⟩
  cases stream <;> cases cr <;> cases w <;> simp [Publisher.publish]

/-- C7 witness: a connected publisher whose write fails still reports
success and drops its handle. -/
theorem publish_never_errors_witness :
    (Publisher.publish ⟨some 7⟩ ⟨none, false⟩ [1, 2]).1 = Except.ok () ∧
    ((Publisher.publish ⟨some 7⟩ ⟨none, false⟩ [1, 2]).2).stream = none :=
  ⟨(publish_never_errors ⟨some 7⟩ ⟨none, false⟩ [1, 2]).1,
    (publish_never_errors ⟨some 7⟩ ⟨none, false⟩ [1, 2]).2 rfl⟩

/-- `websocket/manager.rs`: `RECONNECT_COOLDOWN_SECS`. -/
def RECONNECT_COOLDOWN_SECS : Nat := 300

/-- `websocket/manager.rs`: `MAX_BACKOFF_MS`. -/
def MAX_BACKOFF_MS : Nat := 60000

/-- `websocket/manager.rs`: the supervisor fields relevant to the
reconnect policy.  Times are seconds as `Nat`; `Instant::elapsed()` at
current time `now` for a mark `t` is `now - t`. -/
structure WsSupervisor where
  reconnectAttempts : Nat
  lastSuccessfulConnection : Option Nat
deriving DecidableEq, Repr

/-- Top of each `run` loop iteration (manager.rs lines 46-57): reset the
counter when the last successful connection is more than the cooldown
ago. -/
def WsSupervisor.cooldownReset (m : WsSupervisor) (now : Nat) : WsSupervisor :=
  match m.lastSuccessfulConnection with
  | some t =>
    if RECONNECT_COOLDOWN_SECS < now - t then { m with reconnectAttempts := 0 }
    else m
  | none => m

/-- `connect_and_process` directly after a successful connect
(manager.rs lines 90-93): mark the connection time and set
`reconnect_attempts = 0`. -/
def WsSupervisor.onConnectSuccess (_m : WsSupervisor) (now : Nat) : WsSupervisor :=
  { reconnectAttempts := 0, lastSuccessfulConnection := some now }

/-- `run` error branch (manager.rs lines 65-80): increment the counter
and compute the exponential-backoff delay in milliseconds. -/
def WsSupervisor.onConnectError (m : WsSupervisor) (baseDelayMs : Nat) :
    WsSupervisor × Nat :=
  let attempts := m.reconnectAttempts + 1
  ({ m with reconnectAttempts := attempts },
    min (baseDelayMs * 2 ^ (min attempts 6)) MAX_BACKOFF_MS)

/-- C8 counterexample: a supervisor with 3 accumulated reconnect attempts
whose connection succeeds at `now = 10`, only 10 s after the previous
success (far below the 300 s cooldown), nevertheless has its counter
reset to 0 at the moment of the successful `Streaming` entry
(manager.rs line 92) — refuting the claim that the counter is never
reset at that moment. -/
theorem reconnect_counter_reset_on_connect :
    (WsSupervisor.onConnectSuccess ⟨3, some 0⟩ 10).reconnectAttempts = 0 ∧
    (⟨3, some 0⟩ : WsSupervisor).reconnectAttempts = 3 ∧
    ¬(RECONNECT_COOLDOWN_SECS < 10 - 0) := by
  decide

/-- C8 amended: the reconnect counter IS reset to zero immediately on
every successful connection; in addition, at the top of each supervisor
iteration it is reset when more than `cooldown` (300 s) has elapsed since
the last successful connection, and is left unchanged by that check
otherwise; each failed connection increments it. -/
theorem reconnect_counter_policy :
    (∀ (m : WsSupervisor) (now : Nat),
      (m.onConnectSuccess now).reconnectAttempts = 0 ∧
      (m.onConnectSuccess now).lastSuccessfulConnection = some now) ∧
    (∀ (m : WsSupervisor) (now t : Nat),
      m.lastSuccessfulConnection = some t →
      RECONNECT_COOLDOWN_SECS < now - t →
      (m.cooldownReset now).reconnectAttempts = 0) ∧
    (∀ (m : WsSupervisor) (now t : Nat),
      m.lastSuccessfulConnection = some t →
      ¬(RECONNECT_COOLDOWN_SECS < now - t) →
      m.cooldownReset now = m) ∧
    (∀ (m : WsSupervisor) (base : Nat),
      (m.onConnectError base).1.reconnectAttempts = m.reconnectAttempts + 1) := by
  refine ⟨fun m now => ⟨rfl, rfl⟩, ?_, ?_, fun m base => rfl⟩
  · intro m now t ht h
    unfold WsSupervisor.cooldownReset
    rw [ht]
    simp [h]
  · intro m now t ht h
    unfold WsSupervisor.cooldownReset
    rw [ht]
    simp [h]

/-- C8 amended, witness: with the last success 301 s ago the loop-top
check resets a counter of 4, and a successful connect resets it at once. -/
theorem reconnect_counter_policy_witness :
    ((⟨4, some 0⟩ : WsSupervisor).cooldownReset 301).reconnectAttempts = 0 ∧
    ((⟨4, some 0⟩ : WsSupervisor).onConnectSuccess 42).reconnectAttempts = 0 :=
  ⟨reconnect_counter_policy.2.1 ⟨4, some 0⟩ 301 0 rfl (by decide),
    (reconnect_counter_policy.1 ⟨4, some 0⟩ 42).1⟩

/-- C10: on a book whose stored quantities are nonnegative, a defined
imbalance lies in `[-1, 1]`, hitting `1` exactly when the counted ask
volume is zero and `-1` exactly when the counted bid volume is zero. -/
theorem imbalance_bounds (b : OrderBook) (n : Nat) (v : Dec)
    (hb : ∀ e ∈ b.bids, 0 ≤ e.2) (ha : ∀ e ∈ b.asks, 0 ≤ e.2)
    (h : b.imbalance n = some v) :
    -1 ≤ v ∧ v ≤ 1 ∧
    (v = 1 ↔ ((b.asks.take n).map Prod.snd).sum = 0) ∧
    (v = -1 ↔ ((b.bids.take n).map Prod.snd).sum = 0) := by
  unfold OrderBook.imbalance at h
  set bv := ((b.bids.take n).map Prod.snd).sum with hbv_def
  set av := ((b.asks.take n).map Prod.snd).sum with hav_def
  have hbv : 0 ≤ bv := by
    apply List.sum_nonneg
    intro x hx
    rcases List.mem_map.mp hx with ⟨e, he, rfl⟩
    exact hb e (List.mem_of_mem_take he)
  have hav : 0 ≤ av := by
    apply List.sum_nonneg
    intro x hx
    rcases List.mem_map.mp hx with ⟨e, he, rfl⟩
    exact ha e (List.mem_of_mem_take he)
  split_ifs at h with htot
  · obtain rfl : (bv - av) / (bv + av) = v := Option.some.inj h
    have htot' : bv + av ≠ 0 := ne_of_gt htot
    refine ⟨?_, ?_, ?_, ?_⟩
    · rw [le_div_iff₀ htot]
      linarith
    · rw [div_le_one htot]
      linarith
    · rw [div_eq_one_iff_eq htot']
      constructor
      · intro h'
        linarith
      · intro h'
        rw [h']
        ring
    · rw [div_eq_iff htot']
      constructor
      · intro h'
        linarith
      · intro h'
        rw [h']
        ring

/-- C10 witness: bids `[(2, 3)]`, asks `[(3, 1)]`, `imbalance 5 = 1/2`,
which lies in `[-1, 1]` and is neither endpoint since both volumes are
positive. -/
theorem imbalance_bounds_witness :
    -1 ≤ (1 / 2 : Dec) ∧ (1 / 2 : Dec) ≤ 1 ∧
    ((1 / 2 : Dec) = 1 ↔
      ((([((3 : Dec), (1 : Dec))]).take 5).map Prod.snd).sum = 0) ∧
    ((1 / 2 : Dec) = -1 ↔
      ((([((2 : Dec), (3 : Dec))]).take 5).map Prod.snd).sum = 0) :=
  imbalance_bounds ⟨"W", [(2, 3)], [(3, 1)], 0, true, 10, 0⟩ 5 (1 / 2)
    (by decide) (by decide) (by norm_num [OrderBook.imbalance])

/-! ### Parser (`parser.rs`)

The wire format is JSON; frames are modelled as an abstract `Json` value
(a frame that is not valid JSON at all fails every `serde` attempt in the
code and lands in `Unknown`, like any other unrecognized frame).
Numbers are modelled as integers — every numeric field the parser reads
(`E`, `U`, `u`, `t`, `b`, `a`, `T`) is a `u64`; prices and quantities
arrive as strings.  `serde`'s derived decoders ignore unknown fields and
require each declared field with the right type, which is what the
`decode*` functions below implement (duplicate JSON keys, rejected by
`serde_json`, are resolved to the first occurrence here). -/

/-- A JSON value. -/
inductive Json where
  | null
  | bool (b : Bool)
  | num (n : Int)
  | str (s : String)
  | arr (xs : List Json)
  | obj (fields : List (String × Json))

/-- First value bound to key `k` in an object's field list. -/
def lookupField (fields : List (String × Json)) (k : String) : Option Json :=
  match fields with
  | [] => none
  | (k', v) :: rest => if k' = k then some v else lookupField rest k

/-- Decode a JSON string. -/
def asStr : Json → Option String
  | .str s => some s
  | _ => none

/-- Decode a JSON boolean. -/
def asBool : Json → Option Bool
  | .bool b => some b
  | _ => none

/-- Decode a `u64`: a nonnegative JSON integer. -/
def decodeU64 : Json → Option Nat
  | .num n => if 0 ≤ n then some n.toNat else none
  | _ => none

/-- Numeric value of a digit list, most significant first. -/
def natFromDigits (cs : List Char) : Nat :=
  cs.foldl (fun a c => a * 10 + (c.toNat - 48)) 0

/-- `rust_decimal` textual form after the optional sign: digits with at
most one decimal point and at least one digit.  (Precision overflow and
underscore separators are not modelled; no claim depends on them.) -/
def parseUnsignedDec (cs : List Char) : Option Dec :=
  let intPart := cs.takeWhile (· ≠ '.')
  match cs.dropWhile (· ≠ '.') with
  | [] =>
    if intPart ≠ [] ∧ intPart.all (·.isDigit) then
      some ((natFromDigits intPart : ℚ))
    else none
  | _ :: frac =>
    if (intPart ++ frac) ≠ [] ∧ intPart.all (·.isDigit) ∧ frac.all (·.isDigit) then
      some ((natFromDigits (intPart ++ frac) : ℚ) / (10 ^ frac.length))
    else none

/-- `Decimal::from_str`: optional sign, then `parseUnsignedDec`. -/
def parseDecimal (s : String) : Option Dec :=
  match s.toList with
  | '-' :: rest => (parseUnsignedDec rest).map (fun q => -q)
  | '+' :: rest => parseUnsignedDec rest
  | cs => parseUnsignedDec cs

/-- Decode a decimal carried as a JSON string (`deserialize_decimal`). -/
def asDecStr : Json → Option Dec
  | .str s => parseDecimal s
  | _ => none

/-- `deserialize_price_levels`, one element: a two-element array of
decimal strings; any other arity or element type is a parse error. -/
def decodePriceLevel : Json → Option PriceLevel
  | .arr [.str p, .str q] =>
    match parseDecimal p, parseDecimal q with
    | some a, some b => some ⟨a, b⟩
    | _, _ => none
  | _ => none

/-- Decode each element of a level list. -/
def decodeLevelList : List Json → Option (List PriceLevel)
  | [] => some []
  | j :: rest =>
    match decodePriceLevel j, decodeLevelList rest with
    | some l, some ls => some (l :: ls)
    | _, _ => none

/-- `deserialize_price_levels`: a JSON array of price levels. -/
def decodeLevels : Json → Option (List PriceLevel)
  | .arr xs => decodeLevelList xs
  | _ => none

/-- `serde` decode of `DepthUpdate` (`e`, `E`, `s`, `U`, `u`, `b`, `a`). -/
def decodeDepthUpdate (j : Json) : Option DepthUpdate :=
  match j with
  | .obj fs => do
    let e ← (lookupField fs "e").bind asStr
    let et ← (lookupField fs "E").bind decodeU64
    let s ← (lookupField fs "s").bind asStr
    let fu ← (lookupField fs "U").bind decodeU64
    let lu ← (lookupField fs "u").bind decodeU64
    let bs ← (lookupField fs "b").bind decodeLevels
    let aks ← (lookupField fs "a").bind decodeLevels
    pure ⟨e, et, s, fu, lu, bs, aks⟩
  | _ => none

/-- `parser.rs`: a `Trade` message. -/
structure Trade where
  eventType : String
  eventTime : Nat
  symbol : String
  tradeId : Nat
  price : Dec
  quantity : Dec
  buyerOrderId : Nat
  sellerOrderId : Nat
  tradeTime : Nat
  isBuyerMaker : Bool
deriving DecidableEq, Repr

/-- `serde` decode of `Trade`
(`e`, `E`, `s`, `t`, `p`, `q`, `b`, `a`, `T`, `m`). -/
def decodeTrade (j : Json) : Option Trade :=
  match j with
  | .obj fs => do
    let e ← (lookupField fs "e").bind asStr
    let et ← (lookupField fs "E").bind decodeU64
    let s ← (lookupField fs "s").bind asStr
    let tid ← (lookupField fs "t").bind decodeU64
    let p ← (lookupField fs "p").bind asDecStr
    let q ← (lookupField fs "q").bind asDecStr
    let bo ← (lookupField fs "b").bind decodeU64
    let ao ← (lookupField fs "a").bind decodeU64
    let tt ← (lookupField fs "T").bind decodeU64
    let m ← (lookupField fs "m").bind asBool
    pure ⟨e, et, s, tid, p, q, bo, ao, tt, m⟩
  | _ => none

/-- `serde` decode of `StreamMessage` (`stream` string plus `data`). -/
def decodeStream (j : Json) : Option (String × Json) :=
  match j with
  | .obj fs =>
    match lookupField fs "stream", lookupField fs "data" with
    | some (.str s), some d => some (s, d)
    | _, _ => none
  | _ => none

/-- Does `l` start with `pat`? -/
def listStarts : List Char → List Char → Bool
  | _, [] => true
  | [], _ :: _ => false
  | c :: cs, d :: ds => c = d && listStarts cs ds

/-- Does `l` contain `pat` as a contiguous run? -/
def listHasSub : List Char → List Char → Bool
  | [], pat => listStarts [] pat
  | c :: cs, pat => listStarts (c :: cs) pat || listHasSub cs pat

/-- Rust `str::contains` on string literals. -/
def strHasSub (s pat : String) : Bool := listHasSub s.toList pat.toList

/-- `ParsedMessage`; `unknown` carries the raw payload. -/
inductive ParsedMessage where
  | depthUpd (u : DepthUpdate)
  | trade (t : Trade)
  | unknown (raw : Json)

/-- The code's fall-through after the depth attempt: try `Trade`, else
yield `Unknown` with the raw frame. -/
def tryTradeFrame (j : Json) : Except String ParsedMessage :=
  match decodeTrade j with
  | some t =>
    if t.eventType = "trade" then .ok (.trade t) else .ok (.unknown j)
  | none => .ok (.unknown j)

/-- `ParsedMessage::parse`: try the `{stream, data}` wrapper first and
route by substring of the stream name (errors propagate from
`parse_stream_data`); otherwise try a bare `DepthUpdate` gated on
`e == "depthUpdate"`, then a bare `Trade` gated on `e == "trade"`, and
finally fall back to `Unknown`. -/
def parseFrame (j : Json) : Except String ParsedMessage :=
  match decodeStream j with
  | some (stream, data) =>
    if strHasSub stream "depth" then
      match decodeDepthUpdate data with
      | some d => .ok (.depthUpd d)
      | none => .error "invalid depth payload"
    else if strHasSub stream "trade" then
      match decodeTrade data with
      | some t => .ok (.trade t)
      | none => .error "invalid trade payload"
    else .ok (.unknown data)
  | none =>
    match decodeDepthUpdate j with
    | some d =>
      if d.eventType = "depthUpdate" then .ok (.depthUpd d)
      else tryTradeFrame j
    | none => tryTradeFrame j

/-- Is the parse result `Ok`? -/
def exceptIsOk : Except String ParsedMessage → Bool
  | .ok _ => true
  | .error _ => false

theorem tryTradeFrame_ok (j : Json) : exceptIsOk (tryTradeFrame j) = true := by
  cases ht : decodeTrade j with
  | none => simp [tryTradeFrame, ht, exceptIsOk]
  | some t =>
    by_cases he : t.eventType = "trade" <;>
      simp [tryTradeFrame, ht, he, exceptIsOk]

theorem parseFrame_no_wrapper (j : Json) (h : decodeStream j = none) :
    exceptIsOk (parseFrame j) = true := by
  cases hd : decodeDepthUpdate j with
  | none =>
    simp only [parseFrame, h, hd]
    exact tryTradeFrame_ok j
  | some d =>
    by_cases he : d.eventType = "depthUpdate"
    · simp [parseFrame, h, hd, he, exceptIsOk]
    · simp only [parseFrame, h, hd, if_neg he]
      exact tryTradeFrame_ok j

/-- C9 counterexample: the frame
`{"stream": "btcusdt@depth", "data": 5}` is neither a valid depth-diff
nor a valid trade event, yet `parse` routes it by the `"depth"` stream
substring into the depth decoder and returns a parse error instead of
`Unknown`. -/
theorem parse_errors_on_malformed_wrapped_depth :
    exceptIsOk (parseFrame
      (.obj [("stream", .str "btcusdt@depth"), ("data", .num 5)])) = false ∧
    decodeDepthUpdate
      (.obj [("stream", .str "btcusdt@depth"), ("data", .num 5)]) = none ∧
    decodeTrade
      (.obj [("stream", .str "btcusdt@depth"), ("data", .num 5)]) = none :=
  ⟨rfl, rfl, rfl⟩

/-- C9 amended: a frame that does not decode as a `{stream, data}`
wrapper never produces a parse error — if it is neither a valid depth
nor a valid trade event it yields `Unknown` carrying the raw frame.  A
parse error occurs exactly on a wrapper frame whose stream name contains
`"depth"` (resp. contains `"trade"` without `"depth"`) but whose data
payload fails to decode as the corresponding event. -/
theorem parse_unknown_never_errors (j : Json) :
    (decodeStream j = none → decodeDepthUpdate j = none → decodeTrade j = none →
      parseFrame j = .ok (.unknown j)) ∧
    (decodeStream j = none → exceptIsOk (parseFrame j) = true) ∧
    (∀ (s : String) (d : Json), decodeStream j = some (s, d) →
      (exceptIsOk (parseFrame j) = false ↔
        ((strHasSub s "depth" = true ∧ decodeDepthUpdate d = none) ∨
         (strHasSub s "depth" = false ∧ strHasSub s "trade" = true ∧
           decodeTrade d = none)))) := by
  refine ⟨?_, fun h => parseFrame_no_wrapper j h, ?_⟩
  · intro h1 h2 h3
    simp [parseFrame, h1, h2, tryTradeFrame, h3]
  · intro s d h
    cases hdep : strHasSub s "depth" with
    | true =>
      cases hd : decodeDepthUpdate d with
      | none => simp [parseFrame, h, hdep, hd, exceptIsOk]
      | some dd => simp [parseFrame, h, hdep, hd, exceptIsOk]
    | false =>
      cases htr : strHasSub s "trade" with
      | true =>
        cases ht : decodeTrade d with
        | none => simp [parseFrame, h, hdep, htr, ht, exceptIsOk]
        | some t => simp [parseFrame, h, hdep, htr, ht, exceptIsOk]
      | false => simp [parseFrame, h, hdep, htr, exceptIsOk]

/-- C9 amended, witness: a bare unrecognized frame parses `Ok`, while a
depth-named wrapper with a malformed payload is a parse error. -/
theorem parse_unknown_never_errors_witness :
    exceptIsOk (parseFrame (.str "hello")) = true ∧
    exceptIsOk (parseFrame
      (.obj [("stream", .str "x@depth"), ("data", .null)])) = false :=
  ⟨(parse_unknown_never_errors (.str "hello")).2.1 rfl,
    ((parse_unknown_never_errors
        (.obj [("stream", .str "x@depth"), ("data", .null)])).2.2
      "x@depth" .null rfl).mpr (Or.inl ⟨rfl, rfl⟩)⟩

end PhantomFlow
